import Mathlib

/-!
Verification of the legal-ai-backend query-processing pipeline.

Text is modelled as `List Char` (one element per Unicode code point, matching
Python string semantics for indexing, slicing and substring search). Pure
Python functions from `safety.py`, `app.py` and `app/rag.py` are transcribed
as Lean functions; the external LLM and the external vector search are
parameters (a function `List Char → List Char`, resp. an `Except` value,
since a retrieval failure is an exception in the source).
-/

set_option maxRecDepth 100000

deriving instance DecidableEq for Except

/-- The characters of a string literal, the `List Char` view of text. -/
def str (s : String) : List Char := s.data

/-- ASCII single quote, written via its code point. -/
def SQ : Char := Char.ofNat 39

/-- Python `s.lower()` (ASCII case folding suffices for the texts involved). -/
def lowerStr (s : List Char) : List Char := s.map Char.toLower

/-- The pattern `p` occurs in `t` starting at index `i`. -/
def occursAt (t p : List Char) (i : Nat) : Bool :=
  decide ((t.drop i).take p.length = p)

/-- Python substring test `p in t`. -/
def containsSub (t p : List Char) : Bool :=
  (List.range (t.length + 1)).any (occursAt t p)

/-- Number of (possibly overlapping) occurrence positions of `p` in `t`. -/
def countOcc (t p : List Char) : Nat :=
  (List.range (t.length + 1)).countP (fun i => occursAt t p i)

/-- Python regex `\w` for ASCII text: letters, digits, underscore. -/
def isWordChar (c : Char) : Bool := c.isAlphanum || c == '_'

/-- The literal `p` occurs at `i` in `t` with word boundaries on both sides,
i.e. the regex `\bp\b` matches at `i` (for literals that start and end with a
word character, as all the patterns in `safety.py` do). -/
def wordAt (t p : List Char) (i : Nat) : Bool :=
  occursAt t p i
  && (decide (i = 0) || !isWordChar (t.getD (i - 1) ' '))
  && (decide (i + p.length = t.length) || !isWordChar (t.getD (i + p.length) ' '))

/-- Python `re.search(r"\bp\b", t)` for a literal `p`. -/
def searchWord (p t : List Char) : Bool :=
  (List.range (t.length + 1)).any (wordAt t p)

/-- Python `re.search(r"\bfake\b.*\b(doc|document|evidence)\b", t)`:
`fake` word-bounded at `i`, one of the alternatives word-bounded at `j ≥ i+4`,
and no newline in between (`.` does not match a newline). -/
def searchFakeDoc (t : List Char) : Bool :=
  (List.range (t.length + 1)).any fun i =>
    wordAt t (str "fake") i &&
    (List.range (t.length + 1)).any fun j =>
      decide (i + 4 ≤ j) &&
      ((t.drop (i + 4)).take (j - (i + 4))).all (fun c => !(c == '\n')) &&
      (wordAt t (str "doc") j || wordAt t (str "document") j || wordAt t (str "evidence") j)

/-- `safety.py` `ILLEGAL`: the illegal-tier patterns, as match predicates. -/
def ILLEGAL : List (List Char → Bool) :=
  [searchWord (str "forge"), searchFakeDoc, searchWord (str "bribe"),
   searchWord (str "blackmail"), searchWord (str "extort"), searchWord (str "threaten")]

/-- `safety.py` `EMERGENCY`: the emergency-tier patterns, as match predicates. -/
def EMERGENCY : List (List Char → Bool) :=
  [searchWord (str "violence"), searchWord (str "assault"), searchWord (str "rape"),
   searchWord (str "stalking"), searchWord (str "kill myself"), searchWord (str "suicide")]

/-- `safety.py` `classify`: `none` models Python `None` (handled by `text or ""`). -/
def classify (text : Option (List Char)) : List Char :=
  let t := lowerStr (text.getD [])
  if EMERGENCY.any (fun p => p t) then str "emergency"
  else if ILLEGAL.any (fun p => p t) then str "illegal"
  else str "ok"

/-- `safety.py` `canned_response`. -/
def canned_response (label : List Char) : List Char :=
  if label = str "illegal" then
    str "I can’t help with anything illegal or harmful.\nThis is general information, not legal advice.\nIf you explain what happened, I can suggest lawful options (reporting channels, evidence preservation, and next steps)."
  else if label = str "emergency" then
    str "If you are in immediate danger, contact emergency services now.\nIn India you can call 112.\nThis is general information, not legal advice."
  else []

/-- `app.py` `SYSTEM_STYLE` (the inner quotes are ASCII single quotes). -/
def SYSTEM_STYLE : List Char :=
  str "You are a Legal Awareness Assistant for India.\nRules:\n1) Always include: " ++
  [SQ] ++ str "This is general information, not legal advice." ++ [SQ] ++
  str "\n2) Use simple language and bullet-point steps.\n3) Do not help with illegal or harmful actions.\n4) If unsure, say so and suggest checking official sources or consulting a lawyer/legal aid.\n"

/-- `app.py` `ChatRes` response model. -/
structure ChatRes where
  reply : List Char
  safety : List Char
  provider : List Char
deriving DecidableEq

/-- The sentence `app.py` prepends when the generated reply lacks a disclaimer. -/
def DISCLAIMER_LINE : List Char :=
  str "This is general information, not legal advice.\n\n"

/-- `app.py` `handle_message`. `gen` is the external generation capability
(`llm_fallback_gemini.generate`, taking the system style and the user
message); `provider` is the `FALLBACK_PROVIDER` environment constant. -/
def handle_message (gen : List Char → List Char → List Char) (provider : List Char)
    (message : List Char) : ChatRes :=
  if classify (some message) = str "illegal" ∨ classify (some message) = str "emergency" then
    { reply := canned_response (classify (some message)),
      safety := classify (some message), provider := str "rules" }
  else
    let reply := gen SYSTEM_STYLE message
    { reply := if containsSub (lowerStr reply) (str "not legal advice") then reply
               else DISCLAIMER_LINE ++ reply,
      safety := str "ok", provider := provider }

/-! ## `app/rag.py` -/

/-- `rag.py` `LEGAL_DISCLAIMER`. -/
def LEGAL_DISCLAIMER : List Char :=
  str "\n\n**Disclaimer:** This is general legal information, not legal advice."

/-- `rag.py` `ILLEGAL_KEYWORDS`. -/
def ILLEGAL_KEYWORDS : List (List Char) :=
  [str "evade", str "avoid arrest", str "hide crime", str "commit fraud", str "forge",
   str "illegal drug", str "smuggle", str "bribe", str "money laundering", str "tax evasion",
   str "hack", str "break law", str "get away with", str "cover up crime"]

/-- A retrieved LangChain `Document`: page content plus the metadata keys the
pipeline reads (`source`, `title`, `section`, `page`; `page` is kept in its
string form, matching the `str(...)` conversion applied in the source). -/
structure Document where
  page_content : List Char
  source : Option (List Char) := none
  title : Option (List Char) := none
  sectionMeta : Option (List Char) := none
  page : Option (List Char) := none
deriving DecidableEq

/-- A citation dictionary as built by `_extract_citations`. -/
structure Citation where
  source_title : List Char
  source : List Char
  snippet : List Char
  sectionMeta : Option (List Char) := none
  page : Option (List Char) := none
deriving DecidableEq

/-- `rag.py` `LegalRAGSystem._is_illegal_query`. -/
def is_illegal_query (query : List Char) : Bool :=
  ILLEGAL_KEYWORDS.any fun keyword => containsSub (lowerStr query) keyword

/-- `doc.page_content[:200] + "..." if len(doc.page_content) > 200 else doc.page_content`. -/
def content_snippet (d : Document) : List Char :=
  if 200 < d.page_content.length then d.page_content.take 200 ++ str "..."
  else d.page_content

/-- `metadata.get("source", "Unknown Source")`. -/
def docSource (d : Document) : List Char := d.source.getD (str "Unknown Source")

/-- `source_id = f"{source}_{content_snippet[:50]}"`, the dedup key. -/
def source_id (d : Document) : List Char :=
  docSource d ++ str "_" ++ (content_snippet d).take 50

/-- The citation dictionary built from one document inside `_extract_citations`. -/
def mkCitation (d : Document) : Citation :=
  { source_title := d.title.getD (docSource d)
    source := docSource d
    snippet := content_snippet d
    sectionMeta := d.sectionMeta
    page := d.page }

/-- The dedup key recomputed from a citation's own fields; agrees with
`source_id` on `mkCitation` by definition. -/
def ckey (c : Citation) : List Char := c.source ++ str "_" ++ c.snippet.take 50

/-- The loop of `_extract_citations`: `seen` is the `seen_sources` set
(modelled as the list of keys inserted so far). -/
def extractCitationsGo (seen : List (List Char)) : List Document → List Citation
  | [] => []
  | d :: ds =>
    if source_id d ∈ seen then extractCitationsGo seen ds
    else mkCitation d :: extractCitationsGo (source_id d :: seen) ds

/-- `rag.py` `LegalRAGSystem._extract_citations`. -/
def extract_citations (docs : List Document) : List Citation :=
  extractCitationsGo [] docs

/-- Python `"sep".join(parts)`. -/
def joinSep (sep : List Char) : List (List Char) → List Char
  | [] => []
  | [p] => p
  | p :: q :: ps => p ++ sep ++ joinSep sep (q :: ps)

/-- One block `f"[Source {i}: {source}]\n{doc.page_content}\n"` of the context. -/
def contextPart (i : Nat) (d : Document) : List Char :=
  str "[Source " ++ str (toString i) ++ str ": " ++ docSource d ++ str "]\n" ++
  d.page_content ++ str "\n"

/-- The context string built in `_retrieve_context`: numbered blocks joined
with `"\n---\n"`. -/
def formatContext (docs : List Document) : List Char :=
  joinSep (str "\n---\n") (docs.enum.map fun p => contextPart (p.1 + 1) p.2)

/-- `rag.py` `LegalRAGSystem._retrieve_context`. The external vector search
(`retriever.invoke(query)`) is passed in as an `Except` value: `Except.error`
models the capability raising; the `except` clause only logs and re-raises,
so errors pass through unmodified. -/
def retrieve_context {E : Type} (search : Except E (List Document)) :
    Except E (List Char × List Document) :=
  match search with
  | Except.error e => Except.error e
  | Except.ok docs =>
    if docs = [] then Except.ok ([], [])
    else Except.ok (formatContext docs, docs)

/-- The dictionary returned by `process_query`. -/
structure RAGResult where
  answer : List Char
  citations : List Citation
  has_context : Bool
deriving DecidableEq

/-- The fixed decline sentence of the illegal branch of `process_query`
(the inner apostrophe is an ASCII single quote). -/
def ILLEGAL_DECLINE : List Char :=
  str "I cannot provide guidance on illegal activities. If you have questions about legal compliance or your rights, I" ++
  [SQ] ++ str "m happy to help with that instead."

/-- First insufficient-information marker checked by `process_query`:
`"don't have enough"` (ASCII apostrophe). -/
def MARKER_DONT_HAVE : List Char :=
  str "don" ++ [SQ] ++ str "t have enough"

/-- Second insufficient-information marker: `"insufficient information"`. -/
def MARKER_INSUFFICIENT : List Char := str "insufficient information"

/-- `rag.py` `SYSTEM_PROMPT` up to the `{context}` hole. -/
def SP_PRE : List Char :=
  str "You are Lawglance, an advanced legal AI assistant designed to provide precise legal awareness and information.\n\n**Your Core Purpose:**\n- Provide legal awareness and democratize access to legal information\n- Help users understand their legal rights and obligations\n- Answer ONLY based on the provided context\n- Be helpful, accurate, and educational\n\n**Current Legal Knowledge Domains:**\n- Indian Constitution\n- Bharatiya Nyaya Sanhita, 2023 (BNS)\n- Bharatiya Nagarik Suraksha Sanhita, 2023 (BNSS)\n- Bharatiya Sakshya Adhiniyam, 2023 (BSA)\n- Consumer Protection Act, 2019\n- Motor Vehicles Act, 1988\n- Information Technology Act, 2000\n- The Sexual Harassment of Women at Workplace (Prevention, Prohibition and Redressal) Act, 2013\n- The Protection of Children from Sexual Offences Act, 2012\n\n**Strict Guidelines:**\n1. Answer ONLY from the provided context below\n2. If the context doesn" ++
  [SQ] ++
  str "t contain sufficient information, respond with:\n   \"I don" ++
  [SQ] ++
  str "t have enough verified information in my knowledge base to answer that precisely.\"\n3. NEVER make up legal section numbers or citations\n4. NEVER provide guidance on illegal activities\n5. Always cite specific legal provisions from the context when possible\n6. Keep responses clear, concise, and accurate\n7. Maintain a helpful and educational tone\n\n**Safety Protocol:**\nIf a user asks for help with illegal activities (e.g., evading law, committing crimes), respond with:\n\"" ++
  ILLEGAL_DECLINE ++
  str "\"\n\n---\n\n**Retrieved Legal Context:**\n"

/-- `rag.py` `SYSTEM_PROMPT` between the `{context}` and `{question}` holes. -/
def SP_MID : List Char := str "\n\n---\n\n**User Question:**\n"

/-- `rag.py` `SYSTEM_PROMPT` after the `{question}` hole. -/
def SP_POST : List Char :=
  str "\n\n**Your Response (include relevant citations from the context):**"

/-- The grounded prompt: `SYSTEM_PROMPT` with `{context}` and `{question}`
substituted (the LangChain template wrapper is modelled as plain textual
substitution). -/
def system_prompt (context question : List Char) : List Char :=
  SP_PRE ++ context ++ SP_MID ++ question ++ SP_POST

/-- The generic non-grounded prompt built in the two fallback branches of
`process_query`. -/
def fallback_prompt (query : List Char) : List Char :=
  str "You are a helpful legal AI assistant. Answer the following question to the best of your ability:\n\nQuestion: " ++
  query ++
  str "\n\nProvide a clear and accurate answer."

/-- `rag.py` `LegalRAGSystem.process_query`. `search` is the external vector
search outcome (see `retrieve_context`); `llm` is the external generation
capability `self.llm.invoke`, as prompt text to response text. The outer
`except` clause only logs and re-raises, so retrieval errors propagate. -/
def process_query {E : Type} (search : Except E (List Document))
    (llm : List Char → List Char) (query : List Char) : Except E RAGResult :=
  if is_illegal_query query then
    Except.ok { answer := ILLEGAL_DECLINE ++ LEGAL_DISCLAIMER,
                citations := [], has_context := false }
  else
    match retrieve_context search with
    | Except.error e => Except.error e
    | Except.ok (context, documents) =>
      if context = [] ∨ documents = [] then
        Except.ok { answer := llm (fallback_prompt query) ++ LEGAL_DISCLAIMER,
                    citations := [], has_context := false }
      else
        let answer := llm (system_prompt context query)
        let answer :=
          if containsSub (lowerStr answer) MARKER_DONT_HAVE
             || containsSub (lowerStr answer) MARKER_INSUFFICIENT
          then llm (fallback_prompt query)
          else answer
        Except.ok { answer := answer ++ LEGAL_DISCLAIMER,
                    citations := [], has_context := true }

def docCex : Document :=
  { page_content := str "Article 14 guarantees equality before law.",
    source := some (str "constitution.pdf"),
    title := some (str "Constitution of India") }

def llmCex : List Char → List Char := fun p =>
  if 1000 < p.length then
    str "I don" ++ [SQ] ++ str "t have enough verified information in my knowledge base to answer that precisely."
  else str "General answer."


/-- A 201-character passage, one character over the snippet-truncation limit. -/
def docLong : Document :=
  { page_content := List.replicate 201 'a', source := some (str "s.pdf") }

/-- A short passage that is not truncated. -/
def docShort : Document :=
  { page_content := str "Short passage.", source := some (str "a.pdf") }

/-- Two passages with the same source and the same first 50 snippet
characters, differing only in their `title` metadata. -/
def docA : Document :=
  { page_content := str "Equality before law is guaranteed.",
    source := some (str "c.pdf") }

def docB : Document :=
  { page_content := str "Equality before law is guaranteed.",
    source := some (str "c.pdf"), title := some (str "T") }

/-- Specification-side companion of `extractCitationsGo` at the document
level: the sublist of the input keeping, for each dedup key, only the first
passage that carries it (same traversal and `seen` set as the code). -/
def firstPerKeyGo (seen : List (List Char)) : List Document → List Document
  | [] => []
  | d :: ds =>
    if source_id d ∈ seen then firstPerKeyGo seen ds
    else d :: firstPerKeyGo (source_id d :: seen) ds

/-- The first passage of the input for each dedup key, in retrieval order. -/
def firstPerKey (docs : List Document) : List Document := firstPerKeyGo [] docs

/-! ## Helper lemmas -/

theorem lowerStr_append (a b : List Char) :
    lowerStr (a ++ b) = lowerStr a ++ lowerStr b := List.map_append _ a b

theorem occursAt_eq_true_iff {t p : List Char} {i : Nat} :
    occursAt t p i = true ↔ (t.drop i).take p.length = p := by
  simp [occursAt]

theorem occursAt_length_le {t p : List Char} {i : Nat} (hp : p ≠ [])
    (h : occursAt t p i = true) : i + p.length ≤ t.length := by
  rw [occursAt_eq_true_iff] at h
  have hl := congrArg List.length h
  simp only [List.length_take, List.length_drop] at hl
  have hp0 : 0 < p.length := List.length_pos.mpr hp
  omega

theorem occursAt_append_left {t u p : List Char} {i : Nat}
    (h : i + p.length ≤ t.length) :
    occursAt (t ++ u) p i = occursAt t p i := by
  have hi : i ≤ t.length := le_trans (Nat.le_add_right _ _) h
  have hdrop : (t ++ u).drop i = t.drop i ++ u := by
    rw [List.drop_append_eq_append_drop, Nat.sub_eq_zero_of_le hi, List.drop_zero]
  have htake : (t.drop i ++ u).take p.length = (t.drop i).take p.length := by
    rw [List.take_append_eq_append_take]
    have : p.length - (t.drop i).length = 0 := by
      simp only [List.length_drop]; omega
    rw [this, List.take_zero, List.append_nil]
  simp only [occursAt, hdrop, htake]

theorem containsSub_append_left {a p : List Char} (b : List Char) (hp : p ≠ [])
    (h : containsSub a p = true) : containsSub (a ++ b) p = true := by
  simp only [containsSub, List.any_eq_true, List.mem_range] at h ⊢
  obtain ⟨i, hi, ho⟩ := h
  refine ⟨i, ?_, ?_⟩
  · simp only [List.length_append]; omega
  · rw [occursAt_append_left (occursAt_length_le hp ho)]
    exact ho

/-! ## Claim theorems -/

/-- C6: the safety classifier is a pure function with tiered priority: any
emergency-pattern match yields `emergency` regardless of illegal-pattern
matches, otherwise any illegal-pattern match yields `illegal`, otherwise
`ok`; on `None` or empty input no pattern of either tier matches and the
result is `ok`. The input `"threaten violence"` matches patterns of both
tiers and classifies as `emergency`. -/
theorem C6_classify_tiered :
    (∀ text : Option (List Char),
      classify text =
        (if EMERGENCY.any (fun p => p (lowerStr (text.getD []))) then str "emergency"
         else if ILLEGAL.any (fun p => p (lowerStr (text.getD []))) then str "illegal"
         else str "ok"))
    ∧ EMERGENCY.any (fun p => p (lowerStr [])) = false
    ∧ ILLEGAL.any (fun p => p (lowerStr [])) = false
    ∧ classify none = str "ok"
    ∧ classify (some []) = str "ok"
    ∧ ILLEGAL.any (fun p => p (lowerStr (str "threaten violence"))) = true
    ∧ classify (some (str "threaten violence")) = str "emergency" :=
  ⟨fun _ => rfl, by decide, by decide, by decide, by decide, by decide, by decide⟩

/-- C1: whenever `classify` labels a message `emergency` or `illegal`,
`handle_message` returns the corresponding canned response with provider
`"rules"`, and its result does not depend on the generation capability at
all (the LLM is never invoked). Concretely, `"kill myself"` classifies as
`emergency` and the canned reply contains `"112"` and the disclaimer
sentence; the legacy `ChatRes` carries no citation list (none is produced
on this path). -/
theorem C1_safety_block_no_llm :
    (∀ (gen gen' : List Char → List Char → List Char) (provider message : List Char),
      classify (some message) = str "emergency" ∨ classify (some message) = str "illegal" →
        handle_message gen provider message =
          { reply := canned_response (classify (some message)),
            safety := classify (some message), provider := str "rules" } ∧
        handle_message gen provider message = handle_message gen' provider message)
    ∧ classify (some (str "kill myself")) = str "emergency"
    ∧ handle_message (fun _ _ => str "LLM") (str "gemini") (str "kill myself") =
        { reply := canned_response (str "emergency"), safety := str "emergency",
          provider := str "rules" }
    ∧ containsSub (canned_response (str "emergency")) (str "112") = true
    ∧ containsSub (canned_response (str "emergency"))
        (str "This is general information, not legal advice.") = true := by
  constructor
  · intro gen gen' provider message h
    have hc : classify (some message) = str "illegal" ∨
        classify (some message) = str "emergency" := h.symm
    constructor
    · unfold handle_message
      rw [if_pos hc]
    · unfold handle_message
      rw [if_pos hc, if_pos hc]
  · exact ⟨by decide, by decide, by decide, by decide⟩

/-- Witness for C1 at the concrete emergency query `"kill myself"`: two
different generation capabilities produce the same result. -/
theorem C1_safety_block_no_llm_witness :
    handle_message (fun _ _ => str "GEN A") (str "gemini") (str "kill myself") =
      handle_message (fun _ _ => str "GEN B") (str "gemini") (str "kill myself") :=
  (C1_safety_block_no_llm.1 (fun _ _ => str "GEN A") (fun _ _ => str "GEN B")
    (str "gemini") (str "kill myself") (Or.inl (by decide))).2

/-- C9: for every input message and every behaviour of the generation
capability, the reply of the legacy handler contains `"not legal advice"`
case-insensitively: both canned responses contain it, and on the `ok` path
the disclaimer line is prepended whenever the generated reply lacks it. -/
theorem C9_reply_always_disclaims :
    ∀ (gen : List Char → List Char → List Char) (provider message : List Char),
      containsSub (lowerStr (handle_message gen provider message).reply)
        (str "not legal advice") = true := by
  intro gen provider message
  unfold handle_message
  by_cases hc : classify (some message) = str "illegal" ∨
      classify (some message) = str "emergency"
  · rw [if_pos hc]
    rcases hc with h | h <;> simp only [h] <;> decide
  · rw [if_neg hc]
    simp only
    by_cases hr : containsSub (lowerStr (gen SYSTEM_STYLE message))
        (str "not legal advice") = true
    · rw [if_pos hr]
      exact hr
    · rw [if_neg hr]
      rw [lowerStr_append]
      exact containsSub_append_left _ (by decide) (by decide)

/-- C10: the RAG illegal-query check is plain substring matching on the
lowercased query; whenever any configured keyword occurs as a substring —
also embedded in a longer word, as `"hack"` inside `"Hackathon"` —
`process_query` returns the fixed decline answer with `has_context = false`
and no citations, and its result depends neither on the retrieval outcome
nor on the generation capability (no retrieval call, no LLM call). -/
theorem C10_illegal_substring_block :
    (∀ query : List Char,
      is_illegal_query query =
        ILLEGAL_KEYWORDS.any (fun k => containsSub (lowerStr query) k))
    ∧ is_illegal_query (str "Planning a Hackathon event") = true
    ∧ ∀ (E : Type) (query : List Char), is_illegal_query query = true →
        ∀ (search search' : Except E (List Document))
          (llm llm' : List Char → List Char),
          process_query search llm query =
            Except.ok { answer := ILLEGAL_DECLINE ++ LEGAL_DISCLAIMER,
                        citations := [], has_context := false } ∧
          process_query search llm query = process_query search' llm' query := by
  refine ⟨fun _ => rfl, by decide, ?_⟩
  intro E query h search search' llm llm'
  constructor
  · simp [process_query, h]
  · simp [process_query, h]

/-- Witness for C10 at the query `"Planning a Hackathon event"` (the keyword
`"hack"` occurs only inside `"Hackathon"`): a successful empty retrieval and
a failing retrieval, with different generators, give the same result. -/
theorem C10_illegal_substring_block_witness :
    process_query (Except.ok [] : Except Unit (List Document)) (fun _ => str "A")
        (str "Planning a Hackathon event") =
      process_query (Except.error () : Except Unit (List Document)) (fun _ => str "B")
        (str "Planning a Hackathon event") :=
  (C10_illegal_substring_block.2.2 Unit (str "Planning a Hackathon event") (by decide)
    (Except.ok []) (Except.error ()) (fun _ => str "A") (fun _ => str "B")).2

/-- C5: for a query that passes the illegal-keyword check, when retrieval
returns zero passages the result has `has_context = false`, an empty
citation list, and its answer is generated from the generic non-grounded
prompt, regardless of the query content. -/
theorem C5_zero_passages_no_context :
    ∀ (E : Type) (llm : List Char → List Char) (query : List Char),
      is_illegal_query query = false →
      process_query (Except.ok [] : Except E (List Document)) llm query =
        Except.ok { answer := llm (fallback_prompt query) ++ LEGAL_DISCLAIMER,
                    citations := [], has_context := false } := by
  intro E llm query h
  simp [process_query, retrieve_context, h]

/-- Witness for C5 at the query `"What is bail"` with a constant generator. -/
theorem C5_zero_passages_no_context_witness :
    process_query (Except.ok [] : Except Unit (List Document))
        (fun _ => str "Generic answer.") (str "What is bail") =
      Except.ok { answer := str "Generic answer." ++ LEGAL_DISCLAIMER,
                  citations := [], has_context := false } :=
  C5_zero_passages_no_context Unit (fun _ => str "Generic answer.")
    (str "What is bail") (by decide)

/-- C8: if the external vector search raises during retrieval (the query
having passed the illegal-keyword pre-check, so retrieval is reached), the
error propagates unmodified out of `_retrieve_context` and out of
`process_query`, and the failure is never converted into the empty-results
"no context" outcome: the result is not `Except.ok` of anything. -/
theorem C8_retrieval_error_propagates :
    ∀ (E : Type) (e : E) (llm : List Char → List Char) (query : List Char),
      is_illegal_query query = false →
      retrieve_context (Except.error e : Except E (List Document)) = Except.error e ∧
      process_query (Except.error e) llm query = Except.error e ∧
      ∀ r : RAGResult, process_query (Except.error e) llm query ≠ Except.ok r := by
  intro E e llm query h
  have h2 : process_query (Except.error e) llm query = Except.error e := by
    simp [process_query, retrieve_context, h]
  refine ⟨rfl, h2, fun r hr => ?_⟩
  rw [h2] at hr
  exact Except.noConfusion hr

/-- Witness for C8: a concrete retrieval failure surfaces unchanged. -/
theorem C8_retrieval_error_propagates_witness :
    process_query (Except.error (str "connection reset") : Except (List Char) (List Document))
        (fun _ => str "x") (str "What is anticipatory bail") =
      Except.error (str "connection reset") :=
  (C8_retrieval_error_propagates (List Char) (str "connection reset") (fun _ => str "x")
    (str "What is anticipatory bail") (by decide)).2.1

theorem extractGo_eq_map (seen : List (List Char)) (docs : List Document) :
    extractCitationsGo seen docs = (firstPerKeyGo seen docs).map mkCitation := by
  induction docs generalizing seen with
  | nil => rfl
  | cons d ds ih =>
    unfold extractCitationsGo firstPerKeyGo
    by_cases h : source_id d ∈ seen
    · rw [if_pos h, if_pos h, ih]
    · rw [if_neg h, if_neg h]
      simp [ih]

theorem firstPerKeyGo_sublist (seen : List (List Char)) (docs : List Document) :
    (firstPerKeyGo seen docs).Sublist docs := by
  induction docs generalizing seen with
  | nil => simp [firstPerKeyGo]
  | cons d ds ih =>
    unfold firstPerKeyGo
    by_cases h : source_id d ∈ seen
    · rw [if_pos h]
      exact (ih seen).cons d
    · rw [if_neg h]
      exact (ih (source_id d :: seen)).cons₂ d

theorem firstPerKeyGo_keys_nodup (seen : List (List Char)) (docs : List Document) :
    ((firstPerKeyGo seen docs).map source_id).Nodup ∧
    ∀ k ∈ (firstPerKeyGo seen docs).map source_id, k ∉ seen := by
  induction docs generalizing seen with
  | nil => simp [firstPerKeyGo]
  | cons d ds ih =>
    unfold firstPerKeyGo
    by_cases h : source_id d ∈ seen
    · rw [if_pos h]
      exact ih seen
    · rw [if_neg h]
      obtain ⟨h1, h2⟩ := ih (source_id d :: seen)
      simp only [List.map_cons, List.nodup_cons]
      refine ⟨⟨fun hmem => (h2 _ hmem) (List.mem_cons_self _ _), h1⟩, ?_⟩
      intro k hk
      rcases List.mem_cons.mp hk with hk | hk
      · rw [hk]
        exact h
      · intro hks
        exact (h2 k hk) (List.mem_cons_of_mem _ hks)

theorem firstPerKeyGo_covers (seen : List (List Char)) (docs : List Document) :
    ∀ d ∈ docs, source_id d ∈ seen ∨
      source_id d ∈ (firstPerKeyGo seen docs).map source_id := by
  induction docs generalizing seen with
  | nil => simp
  | cons d0 ds ih =>
    intro d hd
    unfold firstPerKeyGo
    by_cases h : source_id d0 ∈ seen
    · rw [if_pos h]
      rcases List.mem_cons.mp hd with rfl | hd'
      · exact Or.inl h
      · exact ih seen d hd'
    · rw [if_neg h]
      simp only [List.map_cons]
      rcases List.mem_cons.mp hd with rfl | hd'
      · exact Or.inr (List.mem_cons_self _ _)
      · rcases ih (source_id d0 :: seen) d hd' with hs | hs
        · rcases List.mem_cons.mp hs with he | he
          · exact Or.inr (he ▸ List.mem_cons_self _ _)
          · exact Or.inl he
        · exact Or.inr (List.mem_cons_of_mem _ hs)

theorem countP_key_eq_one_of_nodup_mem {l : List (List Char)} {a : List Char}
    (hn : l.Nodup) (hm : a ∈ l) : l.countP (fun k => decide (k = a)) = 1 := by
  induction l with
  | nil => cases hm
  | cons b bs ih =>
    rw [List.countP_cons]
    rcases List.mem_cons.mp hm with rfl | hm'
    · have hnb : a ∉ bs := (List.nodup_cons.mp hn).1
      have hz : bs.countP (fun k => decide (k = a)) = 0 := by
        rw [List.countP_eq_zero]
        intro x hx
        simp only [decide_eq_true_eq]
        intro h
        exact hnb (h ▸ hx)
      simp [hz]
    · have hr := ih (List.nodup_cons.mp hn).2 hm'
      have hba : ¬ (b = a) := fun h => (List.nodup_cons.mp hn).1 (h ▸ hm')
      simp [hr, hba]

theorem extract_keys_eq (docs : List Document) :
    (extract_citations docs).map ckey = (firstPerKey docs).map source_id := by
  rw [extract_citations, extractGo_eq_map, List.map_map]
  rfl

theorem mem_extract_citations {docs : List Document} {c : Citation}
    (h : c ∈ extract_citations docs) : ∃ d, d ∈ docs ∧ c = mkCitation d := by
  rw [extract_citations, extractGo_eq_map] at h
  obtain ⟨d, hd, rfl⟩ := List.mem_map.mp h
  exact ⟨d, (firstPerKeyGo_sublist [] docs).subset hd, rfl⟩

/-- C4: `_extract_citations` deduplicates by the composite key
(source, first 50 characters of snippet): the citation list is the image of
the sublist of passages keeping the first passage per key (so citations keep
insertion order, one per key, built from the first carrier); its keys are
pairwise distinct; and for any two passages of the input sharing source and
first-50-snippet-characters the list has exactly one entry for their key. -/
theorem C4_citation_dedup :
    (∀ docs : List Document,
      extract_citations docs = (firstPerKey docs).map mkCitation ∧
      (firstPerKey docs).Sublist docs ∧
      ((extract_citations docs).map ckey).Nodup)
    ∧ ∀ (docs : List Document) (d₁ d₂ : Document), d₁ ∈ docs → d₂ ∈ docs →
        docSource d₁ = docSource d₂ →
        (content_snippet d₁).take 50 = (content_snippet d₂).take 50 →
        source_id d₁ = source_id d₂ ∧
        ((extract_citations docs).map ckey).countP
          (fun k => decide (k = source_id d₁)) = 1 := by
  have hnodup : ∀ docs : List Document, ((extract_citations docs).map ckey).Nodup := by
    intro docs
    rw [extract_keys_eq]
    exact (firstPerKeyGo_keys_nodup [] docs).1
  constructor
  · intro docs
    exact ⟨extractGo_eq_map [] docs, firstPerKeyGo_sublist [] docs, hnodup docs⟩
  · intro docs d₁ d₂ h₁ _ hs hsn
    have hid : source_id d₁ = source_id d₂ := by
      unfold source_id
      rw [hs, hsn]
    refine ⟨hid, ?_⟩
    have hmem : source_id d₁ ∈ (extract_citations docs).map ckey := by
      rw [extract_keys_eq docs]
      rcases firstPerKeyGo_covers [] docs d₁ h₁ with h | h
      · exact absurd h (List.not_mem_nil _)
      · exact h
    exact countP_key_eq_one_of_nodup_mem (hnodup docs) hmem

/-- Witness for C4: two passages with the same source and the same first 50
snippet characters (differing in `title`) collapse to one citation entry. -/
theorem C4_citation_dedup_witness :
    source_id docA = source_id docB ∧
    ((extract_citations [docA, docB]).map ckey).countP
      (fun k => decide (k = source_id docA)) = 1 :=
  C4_citation_dedup.2 [docA, docB] docA docB (by decide) (by decide)
    (by decide) (by decide)

/-- C7 (amended): every citation snippet is at most 203 characters: the full
passage text (hence at most 200 characters) when the text does not exceed
200 characters, and the first 200 characters followed by the three-character
ellipsis marker (exactly 203 characters) when it does. -/
theorem C7_snippet_truncation :
    ∀ (docs : List Document) (c : Citation), c ∈ extract_citations docs →
      c.snippet.length ≤ 203 ∧
      ∃ d, d ∈ docs ∧ c.snippet = content_snippet d ∧
        (d.page_content.length ≤ 200 → c.snippet = d.page_content) ∧
        (200 < d.page_content.length →
          c.snippet = d.page_content.take 200 ++ str "..." ∧
          c.snippet.length = 203) := by
  intro docs c hc
  obtain ⟨d, hd, rfl⟩ := mem_extract_citations hc
  have hsnip : (mkCitation d).snippet = content_snippet d := rfl
  by_cases h200 : 200 < d.page_content.length
  · have he : content_snippet d = d.page_content.take 200 ++ str "..." := by
      unfold content_snippet
      rw [if_pos h200]
    have hlen : (content_snippet d).length = 203 := by
      rw [he, List.length_append, List.length_take]
      have hmin : min 200 d.page_content.length = 200 := by omega
      rw [hmin]
      decide
    refine ⟨by rw [hsnip, hlen], d, hd, hsnip, fun hle => absurd h200 (by omega),
      fun _ => ⟨by rw [hsnip, he], by rw [hsnip, hlen]⟩⟩
  · have he : content_snippet d = d.page_content := by
      unfold content_snippet
      rw [if_neg h200]
    refine ⟨?_, d, hd, hsnip, fun _ => by rw [hsnip, he],
      fun hgt => absurd hgt h200⟩
    rw [hsnip, he]
    omega

/-- Witness for C7 at a passage that is not truncated. -/
theorem C7_snippet_truncation_witness :
    (mkCitation docShort).snippet.length ≤ 203 ∧
    ∃ d, d ∈ [docShort] ∧ (mkCitation docShort).snippet = content_snippet d ∧
      (d.page_content.length ≤ 200 → (mkCitation docShort).snippet = d.page_content) ∧
      (200 < d.page_content.length →
        (mkCitation docShort).snippet = d.page_content.take 200 ++ str "..." ∧
        (mkCitation docShort).snippet.length = 203) :=
  C7_snippet_truncation [docShort] (mkCitation docShort) (by decide)

/-- Counterexample for C7 as stated: a 201-character passage produces a
citation whose snippet is 203 characters long, exceeding 200. -/
theorem C7_snippet_truncation_counterexample :
    extract_citations [docLong] = [mkCitation docLong] ∧
    (mkCitation docLong).snippet.length = 203 ∧
    ¬ (mkCitation docLong).snippet.length ≤ 200 :=
  ⟨by decide, by decide, by decide⟩

theorem disclaimer_no_border :
    ∀ m, m < LEGAL_DISCLAIMER.length → 0 < m →
      LEGAL_DISCLAIMER.drop m ≠ LEGAL_DISCLAIMER.take (LEGAL_DISCLAIMER.length - m) := by
  decide

theorem occursAt_append_at_length (t p : List Char) :
    occursAt (t ++ p) p t.length = true := by
  rw [occursAt_eq_true_iff, List.drop_append_eq_append_drop]
  simp [List.drop_length, Nat.sub_self]

theorem occursAt_disclaimer_cases {t : List Char} {i : Nat}
    (h : occursAt (t ++ LEGAL_DISCLAIMER) LEGAL_DISCLAIMER i = true) :
    i + LEGAL_DISCLAIMER.length ≤ t.length ∨ i = t.length := by
  have hD : LEGAL_DISCLAIMER ≠ [] := by decide
  have hle := occursAt_length_le hD h
  rw [List.length_append] at hle
  by_cases h1 : i + LEGAL_DISCLAIMER.length ≤ t.length
  · exact Or.inl h1
  by_cases h2 : i = t.length
  · exact Or.inr h2
  exfalso
  have hi_lt : i < t.length := by omega
  have hm2 : t.length - i < LEGAL_DISCLAIMER.length := by omega
  rw [occursAt_eq_true_iff] at h
  rw [List.drop_append_eq_append_drop, Nat.sub_eq_zero_of_le (le_of_lt hi_lt),
    List.drop_zero, List.take_append_eq_append_take] at h
  have hlen : (t.drop i).length = t.length - i := List.length_drop _ _
  rw [List.take_of_length_le (by rw [hlen]; omega)] at h
  refine disclaimer_no_border (t.length - i) hm2 (by omega) ?_
  have hthis : LEGAL_DISCLAIMER.drop (t.length - i)
      = ((t.drop i) ++
          LEGAL_DISCLAIMER.take (LEGAL_DISCLAIMER.length - (t.drop i).length)).drop
          (t.length - i) := by
    rw [h]
  rw [List.drop_append_eq_append_drop] at hthis
  have hdd : (t.drop i).drop (t.length - i) = [] := by
    rw [← hlen]
    exact List.drop_length _
  rw [hdd, List.nil_append, hlen, Nat.sub_self, List.drop_zero] at hthis
  exact hthis

theorem countOcc_append_disclaimer (t : List Char) :
    countOcc (t ++ LEGAL_DISCLAIMER) LEGAL_DISCLAIMER
      = countOcc t LEGAL_DISCLAIMER + 1 := by
  have hD : LEGAL_DISCLAIMER ≠ [] := by decide
  unfold countOcc
  rw [List.length_append]
  have hn : t.length + LEGAL_DISCLAIMER.length + 1
      = t.length + (LEGAL_DISCLAIMER.length + 1) := by omega
  rw [hn, List.range_add, List.countP_append]
  have hA : (List.range t.length).countP
        (fun i => occursAt (t ++ LEGAL_DISCLAIMER) LEGAL_DISCLAIMER i)
      = (List.range (t.length + 1)).countP (fun i => occursAt t LEGAL_DISCLAIMER i) := by
    rw [List.range_succ, List.countP_append]
    have hfalse : occursAt t LEGAL_DISCLAIMER t.length = false := by
      have : (t.drop t.length).take LEGAL_DISCLAIMER.length = [] := by
        rw [List.drop_length, List.take_nil]
      simp only [occursAt, this]
      simpa using fun hco => hD hco
    have hlast : ([t.length] : List Nat).countP (fun i => occursAt t LEGAL_DISCLAIMER i) = 0 := by
      simp [List.countP_cons, hfalse]
    rw [hlast, Nat.add_zero]
    apply List.countP_congr
    intro i hi
    rw [List.mem_range] at hi
    constructor
    · intro hocc
      rcases occursAt_disclaimer_cases hocc with hcase | hcase
      · rw [occursAt_append_left hcase] at hocc
        exact hocc
      · omega
    · intro hocc
      rw [occursAt_append_left (occursAt_length_le hD hocc)]
      exact hocc
  rw [hA]
  have hB : ((List.range (LEGAL_DISCLAIMER.length + 1)).map (t.length + ·)).countP
      (fun i => occursAt (t ++ LEGAL_DISCLAIMER) LEGAL_DISCLAIMER i) = 1 := by
    rw [List.countP_map]
    have hc : ∀ j ∈ List.range (LEGAL_DISCLAIMER.length + 1),
        ((fun i => occursAt (t ++ LEGAL_DISCLAIMER) LEGAL_DISCLAIMER i) ∘ (t.length + ·)) j
          ↔ (decide (j = 0) = true) := by
      intro j hj
      rw [List.mem_range] at hj
      simp only [Function.comp]
      constructor
      · intro hocc
        rcases occursAt_disclaimer_cases hocc with hcase | hcase
        · have hpos : 0 < LEGAL_DISCLAIMER.length := by decide
          exact absurd hcase (by omega)
        · have : j = 0 := by omega
          simp [this]
      · intro hj0
        have hj0' : j = 0 := by simpa using hj0
        subst hj0'
        show occursAt (t ++ LEGAL_DISCLAIMER) LEGAL_DISCLAIMER (t.length + 0) = true
        rw [Nat.add_zero]
        exact occursAt_append_at_length t LEGAL_DISCLAIMER
    rw [List.countP_congr hc, List.range_succ_eq_map, List.countP_cons, List.countP_map]
    have hz : (List.range LEGAL_DISCLAIMER.length).countP
        ((fun j => decide (j = 0)) ∘ Nat.succ) = 0 := by
      rw [List.countP_eq_zero]
      intro a _
      simp [Function.comp]
    rw [hz]
    simp
  rw [hB]

theorem process_query_empty_eq (E : Type) (llm : List Char → List Char)
    (query : List Char) (h : is_illegal_query query = false) :
    process_query (Except.ok [] : Except E (List Document)) llm query =
      Except.ok { answer := llm (fallback_prompt query) ++ LEGAL_DISCLAIMER,
                  citations := [], has_context := false } := by
  simp [process_query, retrieve_context, h]

theorem process_query_nocontext_eq (E : Type) (docs : List Document)
    (llm : List Char → List Char) (query : List Char)
    (h : is_illegal_query query = false) (hd : docs ≠ [])
    (hc : formatContext docs = []) :
    process_query (Except.ok docs : Except E (List Document)) llm query =
      Except.ok { answer := llm (fallback_prompt query) ++ LEGAL_DISCLAIMER,
                  citations := [], has_context := false } := by
  simp [process_query, retrieve_context, h, hd, hc]

theorem process_query_grounded_eq (E : Type) (docs : List Document)
    (llm : List Char → List Char) (query : List Char)
    (h : is_illegal_query query = false) (hd : docs ≠ [])
    (hc : formatContext docs ≠ []) :
    process_query (Except.ok docs : Except E (List Document)) llm query =
      Except.ok
        { answer :=
            (if containsSub (lowerStr (llm (system_prompt (formatContext docs) query)))
                  MARKER_DONT_HAVE
                || containsSub (lowerStr (llm (system_prompt (formatContext docs) query)))
                  MARKER_INSUFFICIENT
             then llm (fallback_prompt query)
             else llm (system_prompt (formatContext docs) query)) ++ LEGAL_DISCLAIMER,
          citations := [], has_context := true } := by
  simp [process_query, retrieve_context, h, hd, hc]

/-- C2 (amended): for every query passing the illegal-keyword check, the
answer of every successful `process_query` run is an output of the
generation capability with the disclaimer appended unconditionally, so the
final answer contains exactly one more occurrence of the disclaimer than
that output does: exactly one when the output does not contain the
disclaimer, and more than one when it already does. -/
theorem C2_disclaimer_appended :
    ∀ (E : Type) (docs : List Document) (llm : List Char → List Char)
      (query : List Char) (r : RAGResult),
      is_illegal_query query = false →
      process_query (Except.ok docs : Except E (List Document)) llm query = Except.ok r →
      ∃ prompt, r.answer = llm prompt ++ LEGAL_DISCLAIMER ∧
        countOcc r.answer LEGAL_DISCLAIMER
          = countOcc (llm prompt) LEGAL_DISCLAIMER + 1 ∧
        (countOcc r.answer LEGAL_DISCLAIMER = 1 ↔
          countOcc (llm prompt) LEGAL_DISCLAIMER = 0) := by
  intro E docs llm query r h hr
  suffices hpr : ∃ prompt, r.answer = llm prompt ++ LEGAL_DISCLAIMER by
    obtain ⟨p, hp⟩ := hpr
    refine ⟨p, hp, ?_, ?_⟩
    · rw [hp]
      exact countOcc_append_disclaimer _
    · rw [hp, countOcc_append_disclaimer]
      omega
  by_cases hd : docs = []
  · subst hd
    rw [process_query_empty_eq E llm query h] at hr
    have h2 := Except.ok.inj hr
    subst h2
    exact ⟨fallback_prompt query, rfl⟩
  · by_cases hctx : formatContext docs = []
    · rw [process_query_nocontext_eq E docs llm query h hd hctx] at hr
      have h2 := Except.ok.inj hr
      subst h2
      exact ⟨fallback_prompt query, rfl⟩
    · rw [process_query_grounded_eq E docs llm query h hd hctx] at hr
      have h2 := Except.ok.inj hr
      subst h2
      by_cases hm : (containsSub (lowerStr (llm (system_prompt (formatContext docs) query)))
            MARKER_DONT_HAVE
          || containsSub (lowerStr (llm (system_prompt (formatContext docs) query)))
            MARKER_INSUFFICIENT) = true
      · refine ⟨fallback_prompt query, ?_⟩
        dsimp only
        rw [if_pos hm]
      · refine ⟨system_prompt (formatContext docs) query, ?_⟩
        dsimp only
        rw [if_neg hm]

/-- Witness for C2 (amended) on the empty-retrieval path with a generator
output that does not contain the disclaimer. -/
theorem C2_disclaimer_appended_witness :
    ∃ prompt,
      str "Short answer." ++ LEGAL_DISCLAIMER
        = (fun _ : List Char => str "Short answer.") prompt ++ LEGAL_DISCLAIMER ∧
      countOcc (str "Short answer." ++ LEGAL_DISCLAIMER) LEGAL_DISCLAIMER
        = countOcc ((fun _ : List Char => str "Short answer.") prompt) LEGAL_DISCLAIMER + 1 ∧
      (countOcc (str "Short answer." ++ LEGAL_DISCLAIMER) LEGAL_DISCLAIMER = 1 ↔
        countOcc ((fun _ : List Char => str "Short answer.") prompt) LEGAL_DISCLAIMER = 0) :=
  C2_disclaimer_appended Unit [] (fun _ => str "Short answer.") (str "What is a contract")
    { answer := str "Short answer." ++ LEGAL_DISCLAIMER, citations := [],
      has_context := false } (by decide) (by decide)

/-- Counterexample for C2 as stated: when the generator output is itself the
disclaimer, the final answer of an `ok` query contains the disclaimer twice,
not exactly once. -/
theorem C2_disclaimer_appended_counterexample :
    is_illegal_query (str "What is a lease") = false ∧
    process_query (Except.ok [] : Except Unit (List Document))
        (fun _ => LEGAL_DISCLAIMER) (str "What is a lease") =
      Except.ok { answer := LEGAL_DISCLAIMER ++ LEGAL_DISCLAIMER,
                  citations := [], has_context := false } ∧
    countOcc (LEGAL_DISCLAIMER ++ LEGAL_DISCLAIMER) LEGAL_DISCLAIMER = 2 :=
  ⟨by decide, by decide, by decide⟩

/-- C3: at a concrete `ok` query with one retrieved passage, the grounded
generation output contains the insufficient-information marker, so the
pipeline re-invokes the generator with the generic non-grounded prompt and
uses that second output, reporting `has_context = true` — but the returned
citation list is empty, although `_extract_citations` applied to the
retrieved passages would be non-empty (the success path of `process_query`
never calls it). -/
theorem C3_insufficient_retry_empty_citations :
    is_illegal_query (str "What are fundamental rights") = false ∧
    containsSub
      (lowerStr (llmCex (system_prompt (formatContext [docCex])
        (str "What are fundamental rights")))) MARKER_DONT_HAVE = true ∧
    llmCex (fallback_prompt (str "What are fundamental rights")) = str "General answer." ∧
    process_query (Except.ok [docCex] : Except Unit (List Document)) llmCex
        (str "What are fundamental rights") =
      Except.ok { answer := str "General answer." ++ LEGAL_DISCLAIMER,
                  citations := [], has_context := true } ∧
    extract_citations [docCex] =
      [{ source_title := str "Constitution of India", source := str "constitution.pdf",
         snippet := str "Article 14 guarantees equality before law." }] :=
  ⟨by decide, by decide, by decide, by decide, by decide⟩
